import Mathlib

/-!
Verification of the spread-rebinning and derived-metric computations of the
NFLPickAnalysis dashboard (src/PoolHost_dashboard.py) and of the game-flag
computation of its ingestion script (src/tranform_data.py).  Machine floats
are embedded as rational numbers; pandas dataframes as lists of records;
grouped accumulation as an explicit fold over an association list.
-/

namespace NFL

/-! ### Rounding: Python round(x, 1) (round half to even), exact on rationals -/

/-- Round a rational to the nearest integer, ties to the even integer,
as the builtin round of Python does. -/
def roundHalfEven (x : ℚ) : ℤ :=
  if x - ⌊x⌋ < 1/2 then ⌊x⌋
  else if 1/2 < x - ⌊x⌋ then ⌊x⌋ + 1
  else if ⌊x⌋ % 2 = 0 then ⌊x⌋ else ⌊x⌋ + 1

/-- Python round(x, 1): round to one decimal place. -/
def pyRound1 (x : ℚ) : ℚ := (roundHalfEven (10 * x) : ℚ) / 10

/-! ### Aggregation/Rebinning engine (rebin_data, PoolHost_dashboard.py 66-83) -/

/-- One input row of rebin_data: per-spread aggregate counters
(rows of get_spread_stats). -/
structure SpreadRow where
  home_spread : ℚ
  total_games : ℕ
  total_covers : ℕ
  total_home_picks : ℕ
  total_picks_made : ℕ
deriving DecidableEq

/-- One output bucket of rebin_data: summed counters keyed by bin_floor,
with the min of the member spreads (the agg dict of line 70-74). -/
structure BinAcc where
  bin_floor : ℚ
  total_games : ℕ
  total_covers : ℕ
  total_home_picks : ℕ
  total_picks_made : ℕ
  home_spread : ℚ
deriving DecidableEq

/-- Line 68: bin_floor = ((home_spread.round(1) // bin_size) * bin_size).round(1);
float floor division is the floor of the exact quotient. -/
def binFloor (binSize : ℚ) (s : ℚ) : ℚ :=
  pyRound1 ((⌊pyRound1 s / binSize⌋ : ℚ) * binSize)

/-- Accumulate one row into the association list of buckets: counters sum,
home_spread takes the min (groupby(bin_floor).agg of lines 70-74). -/
def insertRow (k : ℚ) (r : SpreadRow) : List BinAcc → List BinAcc
  | [] => [⟨k, r.total_games, r.total_covers, r.total_home_picks, r.total_picks_made,
           r.home_spread⟩]
  | b :: rest =>
    if b.bin_floor = k then
      ⟨b.bin_floor, b.total_games + r.total_games, b.total_covers + r.total_covers,
       b.total_home_picks + r.total_home_picks, b.total_picks_made + r.total_picks_made,
       min b.home_spread r.home_spread⟩ :: rest
    else b :: insertRow k r rest

/-- rebin_data grouping step: each row is assigned the bucket keyed by
binFloor and its counters are summed into that bucket. -/
def rebin_data (binSize : ℚ) (rows : List SpreadRow) : List BinAcc :=
  rows.foldl (fun acc r => insertRow (binFloor binSize r.home_spread) r acc) []

/-- Line 81: pct_picks_home = total_home_picks / total_picks_made.replace(0, 1) * 100. -/
def pct_picks_home (b : BinAcc) : ℚ :=
  (b.total_home_picks : ℚ) / ((if b.total_picks_made = 0 then 1 else b.total_picks_made : ℕ) : ℚ) * 100

/-- Line 82: pct_games_home_covered = total_covers / total_games.replace(0, 1) * 100. -/
def pct_games_home_covered (b : BinAcc) : ℚ :=
  (b.total_covers : ℚ) / ((if b.total_games = 0 then 1 else b.total_games : ℕ) : ℚ) * 100

/-- The enumerated bin sizes offered by the dashboard (line 308). -/
def binSizes : List ℚ := [1/2, 1, 3/2, 2, 5/2, 3, 7/2, 4, 5]

/-! ### Luck classification (classify_luck, PoolHost_dashboard.py 546-550) -/

/-- The four luck buckets; the source labels them with f-strings carrying the
threshold, here abstracted as constructors. -/
inductive LuckBucket where
  | blowoutLoss
  | badBeat
  | luckyWin
  | convincingWin
deriving DecidableEq

/-- classify_luck: the nested if chain of lines 547-550, with threshold t. -/
def classify_luck (t : ℚ) (margin : ℚ) : LuckBucket :=
  if t < margin then .convincingWin
  else if 0 < margin then .luckyWin
  else if -t ≤ margin then .badBeat
  else .blowoutLoss

/-! ### Per-pick herd classification (get_herd_status, PoolHost_dashboard.py 401-410) -/

inductive HerdStatus where
  | herd
  | contrarian
  | neutral
deriving DecidableEq

/-- Line 402: p_home = home_pick_pct / 100.0 if home_pick_pct > 1 else home_pick_pct. -/
def normHomePct (home_pick_pct : ℚ) : ℚ :=
  if 1 < home_pick_pct then home_pick_pct / 100 else home_pick_pct

/-- get_herd_status: per-pick classification against the 0.60/0.40 thresholds
on the normalized home-pick share (lines 401-410). -/
def get_herd_status (pick_home : Bool) (home_pick_pct : ℚ) : HerdStatus :=
  let p_home := normHomePct home_pick_pct
  if pick_home then
    if 6/10 ≤ p_home then .herd
    else if p_home ≤ 4/10 then .contrarian
    else .neutral
  else
    if p_home ≤ 4/10 then .herd
    else if 6/10 ≤ p_home then .contrarian
    else .neutral

/-- The pool percentage (0-100 scale) choosing the side the participant
picked: home_pick_pct for a home pick, 100 - home_pick_pct otherwise. -/
def pickShare (pick_home : Bool) (home_pick_pct : ℚ) : ℚ :=
  if pick_home then home_pick_pct else 100 - home_pick_pct

/-- The per-pick classification rule of the spec, stated on the 0-100 share p
of the picked side: p >= 60 is Herd, p <= 40 is Contrarian, Neutral otherwise.
Stated from the words of the spec, for comparison with get_herd_status. -/
def specHerdOfShare (p : ℚ) : HerdStatus :=
  if 60 ≤ p then .herd
  else if p ≤ 40 then .contrarian
  else .neutral

/-! ### Pool-wide herd baselines (PoolHost_dashboard.py 146-162 and 657-678) -/

/-- One row of get_global_game_stats: per finished game, the adjusted margin
of the home side (nullable) and the pool home-pick percentage (nullable). -/
structure GlobalStatRow where
  home_margin : Option ℚ
  home_pick_pct : Option ℚ
deriving DecidableEq

/-- Weighted category totals accumulated by the pool-wide baselines. -/
structure HerdCounts where
  herd : ℚ
  contrarian : ℚ
  neutral : ℚ
deriving DecidableEq

/-- Read the accumulated weight of one category. -/
def HerdCounts.get (c : HerdCounts) : HerdStatus → ℚ
  | .herd => c.herd
  | .contrarian => c.contrarian
  | .neutral => c.neutral

/-- counts[cat] += w. -/
def HerdCounts.add (c : HerdCounts) (cat : HerdStatus) (w : ℚ) : HerdCounts :=
  match cat with
  | .herd => { c with herd := c.herd + w }
  | .contrarian => { c with contrarian := c.contrarian + w }
  | .neutral => { c with neutral := c.neutral + w }

/-- The strict-threshold side classification both pool baselines use:
Herd if share > 60, Contrarian if share < 40, else Neutral
(lines 151-157 and 665-666). -/
def strictSideCat (p : ℚ) : HerdStatus :=
  if 60 < p then .herd
  else if p < 40 then .contrarian
  else .neutral

/-- One loop iteration of pool_herd_counts (lines 659-676, totals only):
fill a null home_pick_pct with 50, then add the share of each side to its
strict-threshold category. -/
def poolStep (c : HerdCounts) (r : GlobalStatRow) : HerdCounts :=
  (c.add (strictSideCat (r.home_pick_pct.getD 50)) (r.home_pick_pct.getD 50)).add
    (strictSideCat (100 - r.home_pick_pct.getD 50)) (100 - r.home_pick_pct.getD 50)

/-- pool_herd_counts (lines 654-678): drop rows with null home_margin, then
accumulate both sides of every remaining game. -/
def pool_herd_counts (rows : List GlobalStatRow) : HerdCounts :=
  (rows.filter (fun r => r.home_margin.isSome)).foldl poolStep ⟨0, 0, 0⟩

/-- One row of get_game_consensus: valid-pick count and home-pick percentage. -/
structure ConsensusRow where
  total_picks : ℚ
  home_pick_pct : ℚ
deriving DecidableEq

/-- One loop iteration of get_global_herd_distribution (lines 146-157): each
side contributes n_picks * (share / 100) to its strict-threshold category. -/
def globalStep (c : HerdCounts) (r : ConsensusRow) : HerdCounts :=
  (c.add (strictSideCat r.home_pick_pct) (r.total_picks * (r.home_pick_pct / 100))).add
    (strictSideCat (100 - r.home_pick_pct)) (r.total_picks * ((100 - r.home_pick_pct) / 100))

/-- The category counts of get_global_herd_distribution (lines 143-159). -/
def global_herd_counts (rows : List ConsensusRow) : HerdCounts :=
  rows.foldl globalStep ⟨0, 0, 0⟩

/-! ### MNF point-total analysis (PoolHost_dashboard.py 755-770) -/

/-- One MNF game row after the join: the participant forecast, the pool
median forecast (both nullable) and the actual combined score. -/
structure MnfRow where
  tot_if_picked : Option ℚ
  pool_median_total : Option ℚ
  actual_total : ℚ
deriving DecidableEq

/-- Line 758: keep rows with actual_total > 0 and both forecasts present;
result triples are (forecast_user, forecast_median, actual). -/
def admittedMnf (rows : List MnfRow) : List (ℚ × ℚ × ℚ) :=
  rows.filterMap (fun r =>
    match r.tot_if_picked, r.pool_median_total with
    | some u, some m => if 0 < r.actual_total then some (u, m, r.actual_total) else none
    | _, _ => none)

/-- Mean absolute error of the participant forecasts (lines 760, 764). -/
def mae_user (l : List (ℚ × ℚ × ℚ)) : ℚ :=
  (l.map (fun x => |x.1 - x.2.2|)).sum / l.length

/-- Mean absolute error of the pool-median forecasts (lines 761, 765). -/
def mae_median (l : List (ℚ × ℚ × ℚ)) : ℚ :=
  (l.map (fun x => |x.2.1 - x.2.2|)).sum / l.length

/-- Line 767: edge_pct = ((mae_median - mae_user) / mae_median) * 100 if
mae_median > 0 else 0.0. -/
def edge_pct (l : List (ℚ × ℚ × ℚ)) : ℚ :=
  if 0 < mae_median l then ((mae_median l - mae_user l) / mae_median l) * 100 else 0

/-! ### Game records from ingestion (tranform_data.py 100-126) and the
per-user game query (PoolHost_dashboard.py 173-177) -/

structure Game where
  season : ℤ
  week : ℤ
  home_score : ℤ
  away_score : ℤ
  home_spread : ℚ
  home_cover : Bool
  tie_spread : Bool
deriving DecidableEq

/-- tranform_data.py 105-107: adjusted_home = h_score + spread;
tie_spread = (adjusted_home == a_score); home_cover = (adjusted_home > a_score). -/
def mkGame (season week h_score a_score : ℤ) (spread : ℚ) : Game :=
  let adjusted_home : ℚ := (h_score : ℚ) + spread
  { season := season, week := week, home_score := h_score, away_score := a_score,
    home_spread := spread,
    home_cover := decide ((a_score : ℚ) < adjusted_home),
    tie_spread := decide (adjusted_home = (a_score : ℚ)) }

/-- The game query of get_user_performance_data (lines 173-177): games of the
selected seasons with tie_spread = False. -/
def gamesQuery (games : List Game) (seasons : List ℤ) : List Game :=
  games.filter (fun g => decide (g.season ∈ seasons) && !g.tie_spread)

/-! ### Per-user metric derivation (PoolHost_dashboard.py 397-399) -/

/-- Line 397: user_won = (pick_home == home_cover). -/
def user_won (pick_home home_cover : Bool) : Bool := pick_home == home_cover

/-- Line 398: raw_margin = (home_score + home_spread) - away_score. -/
def raw_margin (g : Game) : ℚ :=
  ((g.home_score : ℚ) + g.home_spread) - (g.away_score : ℚ)

/-- Line 399: user_margin = raw_margin if pick_home else -raw_margin. -/
def user_margin (pick_home : Bool) (g : Game) : ℚ :=
  if pick_home then raw_margin g else -raw_margin g

/-- The spread-adjusted margin from the perspective of the picked side: the
adjusted score of the picked side minus the score of the opposing side (the spread adjusts the
home side). -/
def pickedSideMargin (pick_home : Bool) (g : Game) : ℚ :=
  if pick_home then ((g.home_score : ℚ) + g.home_spread) - (g.away_score : ℚ)
  else (g.away_score : ℚ) - ((g.home_score : ℚ) + g.home_spread)

/-! ### Median Picker synthesis (PoolHost_dashboard.py 194-199) -/

/-- Left-join lookup of the consensus home-pick percentage of a game. -/
def lookupPct : List (ℤ × ℚ) → ℤ → Option ℚ
  | [], _ => none
  | (g, p) :: rest, gid => if g = gid then some p else lookupPct rest gid

/-- Lines 196-197: home_pick_pct.fillna(50.0); pick_home = home_pick_pct > 50.0. -/
def medianPickHome (consensus : List (ℤ × ℚ)) (gid : ℤ) : Bool :=
  decide (50 < (lookupPct consensus gid).getD 50)

/-- The picks of the Median Picker: none when the consensus fetch is empty
(lines 194, 208-209), else one pick per game by medianPickHome. -/
def medianPicks (gameIds : List ℤ) (consensus : List (ℤ × ℚ)) : List (ℤ × Bool) :=
  if consensus.isEmpty then []
  else gameIds.map (fun gid => (gid, medianPickHome consensus gid))

/-! ### Per-row decompositions of the pool-wide baselines (for C4) -/

/-- The weighted contribution of one global-stat row to a category of
pool_herd_counts: the share of each side, when its strict-threshold category is
the one asked for. -/
def poolRowContrib (cat : HerdStatus) (r : GlobalStatRow) : ℚ :=
  let p := r.home_pick_pct.getD 50
  (if strictSideCat p = cat then p else 0) +
    (if strictSideCat (100 - p) = cat then 100 - p else 0)

/-- The weighted contribution of one consensus row to a category of
global_herd_counts: n_picks times the share of each side over 100. -/
def globalRowContrib (cat : HerdStatus) (r : ConsensusRow) : ℚ :=
  (if strictSideCat r.home_pick_pct = cat then r.total_picks * (r.home_pick_pct / 100) else 0) +
    (if strictSideCat (100 - r.home_pick_pct) = cat
     then r.total_picks * ((100 - r.home_pick_pct) / 100) else 0)

/-! ## Theorems -/

/-! ### Rebinning lemmas -/

lemma insertRow_keys (k : ℚ) (r : SpreadRow) (acc : List BinAcc) :
    (insertRow k r acc).map BinAcc.bin_floor =
      if k ∈ acc.map BinAcc.bin_floor then acc.map BinAcc.bin_floor
      else acc.map BinAcc.bin_floor ++ [k] := by
  induction acc with
  | nil => simp [insertRow]
  | cons b rest ih =>
      by_cases hb : b.bin_floor = k
      · simp [insertRow, hb]
      · by_cases hk : k ∈ rest.map BinAcc.bin_floor <;>
          simp [insertRow, hb, ih, hk, Ne.symm hb]

lemma insertRow_keys_nodup (k : ℚ) (r : SpreadRow) (acc : List BinAcc)
    (h : (acc.map BinAcc.bin_floor).Nodup) :
    ((insertRow k r acc).map BinAcc.bin_floor).Nodup := by
  rw [insertRow_keys]
  split_ifs with hk
  · exact h
  · rw [List.nodup_append]
    exact ⟨h, List.nodup_singleton k, fun a ha hb => hk ((List.mem_singleton.mp hb) ▸ ha)⟩

lemma mem_insertRow_keys_self (k : ℚ) (r : SpreadRow) (acc : List BinAcc) :
    k ∈ (insertRow k r acc).map BinAcc.bin_floor := by
  rw [insertRow_keys]
  split_ifs with hk
  · exact hk
  · simp

lemma mem_insertRow_keys_mono (x k : ℚ) (r : SpreadRow) (acc : List BinAcc)
    (h : x ∈ acc.map BinAcc.bin_floor) :
    x ∈ (insertRow k r acc).map BinAcc.bin_floor := by
  rw [insertRow_keys]
  split_ifs with hk
  · exact h
  · exact List.mem_append_left _ h

lemma insertRow_sum_games (k : ℚ) (r : SpreadRow) (acc : List BinAcc) :
    ((insertRow k r acc).map BinAcc.total_games).sum
      = (acc.map BinAcc.total_games).sum + r.total_games := by
  induction acc with
  | nil => simp [insertRow]
  | cons b rest ih =>
      by_cases hb : b.bin_floor = k <;> simp [insertRow, hb, ih] <;> omega

lemma insertRow_sum_covers (k : ℚ) (r : SpreadRow) (acc : List BinAcc) :
    ((insertRow k r acc).map BinAcc.total_covers).sum
      = (acc.map BinAcc.total_covers).sum + r.total_covers := by
  induction acc with
  | nil => simp [insertRow]
  | cons b rest ih =>
      by_cases hb : b.bin_floor = k <;> simp [insertRow, hb, ih] <;> omega

lemma insertRow_sum_home_picks (k : ℚ) (r : SpreadRow) (acc : List BinAcc) :
    ((insertRow k r acc).map BinAcc.total_home_picks).sum
      = (acc.map BinAcc.total_home_picks).sum + r.total_home_picks := by
  induction acc with
  | nil => simp [insertRow]
  | cons b rest ih =>
      by_cases hb : b.bin_floor = k <;> simp [insertRow, hb, ih] <;> omega

lemma insertRow_sum_picks_made (k : ℚ) (r : SpreadRow) (acc : List BinAcc) :
    ((insertRow k r acc).map BinAcc.total_picks_made).sum
      = (acc.map BinAcc.total_picks_made).sum + r.total_picks_made := by
  induction acc with
  | nil => simp [insertRow]
  | cons b rest ih =>
      by_cases hb : b.bin_floor = k <;> simp [insertRow, hb, ih] <;> omega

lemma rebin_foldl_sum_games (w : ℚ) (rows : List SpreadRow) (acc : List BinAcc) :
    ((rows.foldl (fun acc r => insertRow (binFloor w r.home_spread) r acc) acc).map
        BinAcc.total_games).sum
      = (acc.map BinAcc.total_games).sum + (rows.map SpreadRow.total_games).sum := by
  induction rows generalizing acc with
  | nil => simp
  | cons r rest ih =>
      rw [List.foldl_cons, ih, insertRow_sum_games, List.map_cons, List.sum_cons]
      omega

lemma rebin_foldl_sum_covers (w : ℚ) (rows : List SpreadRow) (acc : List BinAcc) :
    ((rows.foldl (fun acc r => insertRow (binFloor w r.home_spread) r acc) acc).map
        BinAcc.total_covers).sum
      = (acc.map BinAcc.total_covers).sum + (rows.map SpreadRow.total_covers).sum := by
  induction rows generalizing acc with
  | nil => simp
  | cons r rest ih =>
      rw [List.foldl_cons, ih, insertRow_sum_covers, List.map_cons, List.sum_cons]
      omega

lemma rebin_foldl_sum_home_picks (w : ℚ) (rows : List SpreadRow) (acc : List BinAcc) :
    ((rows.foldl (fun acc r => insertRow (binFloor w r.home_spread) r acc) acc).map
        BinAcc.total_home_picks).sum
      = (acc.map BinAcc.total_home_picks).sum + (rows.map SpreadRow.total_home_picks).sum := by
  induction rows generalizing acc with
  | nil => simp
  | cons r rest ih =>
      rw [List.foldl_cons, ih, insertRow_sum_home_picks, List.map_cons, List.sum_cons]
      omega

lemma rebin_foldl_sum_picks_made (w : ℚ) (rows : List SpreadRow) (acc : List BinAcc) :
    ((rows.foldl (fun acc r => insertRow (binFloor w r.home_spread) r acc) acc).map
        BinAcc.total_picks_made).sum
      = (acc.map BinAcc.total_picks_made).sum + (rows.map SpreadRow.total_picks_made).sum := by
  induction rows generalizing acc with
  | nil => simp
  | cons r rest ih =>
      rw [List.foldl_cons, ih, insertRow_sum_picks_made, List.map_cons, List.sum_cons]
      omega

lemma rebin_foldl_keys_nodup (w : ℚ) (rows : List SpreadRow) (acc : List BinAcc)
    (h : (acc.map BinAcc.bin_floor).Nodup) :
    (((rows.foldl (fun acc r => insertRow (binFloor w r.home_spread) r acc) acc).map
        BinAcc.bin_floor)).Nodup := by
  induction rows generalizing acc with
  | nil => exact h
  | cons r rest ih =>
      rw [List.foldl_cons]
      exact ih _ (insertRow_keys_nodup _ _ _ h)

lemma rebin_foldl_keys_mono (w : ℚ) (rows : List SpreadRow) (acc : List BinAcc) (x : ℚ)
    (h : x ∈ acc.map BinAcc.bin_floor) :
    x ∈ ((rows.foldl (fun acc r => insertRow (binFloor w r.home_spread) r acc) acc).map
        BinAcc.bin_floor) := by
  induction rows generalizing acc with
  | nil => exact h
  | cons r rest ih =>
      rw [List.foldl_cons]
      exact ih _ (mem_insertRow_keys_mono _ _ _ _ h)

lemma rebin_foldl_keys_mem (w : ℚ) (rows : List SpreadRow) (acc : List BinAcc)
    (r : SpreadRow) (hr : r ∈ rows) :
    binFloor w r.home_spread
      ∈ ((rows.foldl (fun acc r => insertRow (binFloor w r.home_spread) r acc) acc).map
        BinAcc.bin_floor) := by
  induction rows generalizing acc with
  | nil => cases hr
  | cons a rest ih =>
      rw [List.foldl_cons]
      rcases List.mem_cons.mp hr with h | h
      · subst h
        exact rebin_foldl_keys_mono w rest _ _ (mem_insertRow_keys_self _ _ _)
      · exact ih _ h

lemma insertRow_bounds (k : ℚ) (r : SpreadRow)
    (hr : r.total_home_picks ≤ r.total_picks_made ∧ r.total_covers ≤ r.total_games)
    (acc : List BinAcc) :
    (∀ b ∈ acc,
      b.total_home_picks ≤ b.total_picks_made ∧ b.total_covers ≤ b.total_games) →
    ∀ b ∈ insertRow k r acc,
      b.total_home_picks ≤ b.total_picks_made ∧ b.total_covers ≤ b.total_games := by
  induction acc with
  | nil =>
      intro _ b hb
      simp only [insertRow, List.mem_singleton] at hb
      subst hb
      exact hr
  | cons a rest ih =>
      intro hacc b hb
      simp only [insertRow] at hb
      by_cases ha : a.bin_floor = k
      · rw [if_pos ha] at hb
        rcases List.mem_cons.mp hb with hb | hb
        · subst hb
          have h1 := hacc a (List.mem_cons_self a rest)
          exact ⟨Nat.add_le_add h1.1 hr.1, Nat.add_le_add h1.2 hr.2⟩
        · exact hacc b (List.mem_cons_of_mem _ hb)
      · rw [if_neg ha] at hb
        rcases List.mem_cons.mp hb with hb | hb
        · subst hb
          exact hacc _ (List.mem_cons_self _ _)
        · exact ih (fun x hx => hacc x (List.mem_cons_of_mem _ hx)) b hb

lemma rebin_foldl_bounds (w : ℚ) (rows : List SpreadRow) (acc : List BinAcc) :
    (∀ r ∈ rows,
      r.total_home_picks ≤ r.total_picks_made ∧ r.total_covers ≤ r.total_games) →
    (∀ b ∈ acc,
      b.total_home_picks ≤ b.total_picks_made ∧ b.total_covers ≤ b.total_games) →
    ∀ b ∈ rows.foldl (fun acc r => insertRow (binFloor w r.home_spread) r acc) acc,
      b.total_home_picks ≤ b.total_picks_made ∧ b.total_covers ≤ b.total_games := by
  induction rows generalizing acc with
  | nil => exact fun _ hacc => hacc
  | cons r rest ih =>
      intro hrows hacc
      rw [List.foldl_cons]
      exact ih _ (fun x hx => hrows x (List.mem_cons_of_mem _ hx))
        (insertRow_bounds _ _ (hrows r (List.mem_cons_self r rest)) _ hacc)

lemma pct_bounds (num den : ℕ) (h : num ≤ den) :
    0 ≤ (num : ℚ) / (((if den = 0 then 1 else den : ℕ) : ℚ)) * 100
    ∧ (num : ℚ) / (((if den = 0 then 1 else den : ℕ) : ℚ)) * 100 ≤ 100
    ∧ (((if den = 0 then 1 else den : ℕ) : ℚ)) = (((max den 1 : ℕ)) : ℚ) := by
  rcases Nat.eq_zero_or_pos den with hd | hd
  · subst hd
    have hnum : num = 0 := Nat.le_zero.mp h
    subst hnum
    norm_num
  · have hne : den ≠ 0 := Nat.pos_iff_ne_zero.mp hd
    rw [if_neg hne]
    have hden : (0 : ℚ) < den := by exact_mod_cast hd
    have hle : (num : ℚ) ≤ den := by exact_mod_cast h
    refine ⟨by positivity, ?_, ?_⟩
    · rw [div_mul_eq_mul_div, div_le_iff₀ hden]
      nlinarith
    · have : max den 1 = den := Nat.max_eq_left hd
      rw [this]

lemma HerdCounts.get_add (c : HerdCounts) (k cat : HerdStatus) (w : ℚ) :
    (c.add k w).get cat = c.get cat + if k = cat then w else 0 := by
  cases k <;> cases cat <;> simp [HerdCounts.add, HerdCounts.get]

lemma poolStep_get (c : HerdCounts) (r : GlobalStatRow) (cat : HerdStatus) :
    (poolStep c r).get cat = c.get cat + poolRowContrib cat r := by
  simp only [poolStep, poolRowContrib, HerdCounts.get_add]
  ring

lemma globalStep_get (c : HerdCounts) (r : ConsensusRow) (cat : HerdStatus) :
    (globalStep c r).get cat = c.get cat + globalRowContrib cat r := by
  simp only [globalStep, globalRowContrib, HerdCounts.get_add]
  ring

lemma poolStep_foldl (cat : HerdStatus) (l : List GlobalStatRow) (c : HerdCounts) :
    (l.foldl poolStep c).get cat = c.get cat + (l.map (poolRowContrib cat)).sum := by
  induction l generalizing c with
  | nil => simp
  | cons r rest ih =>
      rw [List.foldl_cons, ih, List.map_cons, List.sum_cons, poolStep_get]
      ring

lemma globalStep_foldl (cat : HerdStatus) (l : List ConsensusRow) (c : HerdCounts) :
    (l.foldl globalStep c).get cat = c.get cat + (l.map (globalRowContrib cat)).sum := by
  induction l generalizing c with
  | nil => simp
  | cons r rest ih =>
      rw [List.foldl_cons, ih, List.map_cons, List.sum_cons, globalStep_get]
      ring

lemma HerdCounts.get_zero (cat : HerdStatus) : (⟨0, 0, 0⟩ : HerdCounts).get cat = 0 := by
  cases cat <;> rfl

/-- C1: for every bucket width in the enumerated set and every sequence of
input rows, rebin_data assigns each input row to exactly one bucket, keyed by
binFloor (floor(round(spread, 1) / w) * w, rounded to one decimal), and each
of the four counter sums is conserved from input rows to output buckets. -/
theorem c1_rebin_conservation (w : ℚ) (_hw : w ∈ binSizes) (rows : List SpreadRow) :
    ((rebin_data w rows).map BinAcc.bin_floor).Nodup
    ∧ (∀ r ∈ rows, binFloor w r.home_spread ∈ (rebin_data w rows).map BinAcc.bin_floor)
    ∧ ((rebin_data w rows).map BinAcc.total_games).sum
        = (rows.map SpreadRow.total_games).sum
    ∧ ((rebin_data w rows).map BinAcc.total_covers).sum
        = (rows.map SpreadRow.total_covers).sum
    ∧ ((rebin_data w rows).map BinAcc.total_home_picks).sum
        = (rows.map SpreadRow.total_home_picks).sum
    ∧ ((rebin_data w rows).map BinAcc.total_picks_made).sum
        = (rows.map SpreadRow.total_picks_made).sum := by
  refine ⟨?_, ?_, ?_, ?_, ?_, ?_⟩
  · exact rebin_foldl_keys_nodup w rows [] (by simp)
  · exact fun r hr => rebin_foldl_keys_mem w rows [] r hr
  · simpa using rebin_foldl_sum_games w rows []
  · simpa using rebin_foldl_sum_covers w rows []
  · simpa using rebin_foldl_sum_home_picks w rows []
  · simpa using rebin_foldl_sum_picks_made w rows []

/-- The two input rows of the C1 witness: spreads -3.0 and -2.6 both floor to
bucket -3.0 at width 0.5. -/
def c1Rows : List SpreadRow := [⟨-3, 1, 1, 1, 1⟩, ⟨-26/10, 1, 0, 0, 1⟩]

/-- Witness for C1 at width 1/2 on two concrete rows. -/
theorem c1_rebin_conservation_witness :
    (1/2 : ℚ) ∈ binSizes
    ∧ (((rebin_data (1/2) c1Rows).map BinAcc.bin_floor).Nodup
       ∧ (∀ r ∈ c1Rows, binFloor (1/2) r.home_spread
            ∈ (rebin_data (1/2) c1Rows).map BinAcc.bin_floor)
       ∧ ((rebin_data (1/2) c1Rows).map BinAcc.total_games).sum
            = (c1Rows.map SpreadRow.total_games).sum
       ∧ ((rebin_data (1/2) c1Rows).map BinAcc.total_covers).sum
            = (c1Rows.map SpreadRow.total_covers).sum
       ∧ ((rebin_data (1/2) c1Rows).map BinAcc.total_home_picks).sum
            = (c1Rows.map SpreadRow.total_home_picks).sum
       ∧ ((rebin_data (1/2) c1Rows).map BinAcc.total_picks_made).sum
            = (c1Rows.map SpreadRow.total_picks_made).sum) :=
  ⟨by norm_num [binSizes], c1_rebin_conservation (1/2) (by norm_num [binSizes]) c1Rows⟩

/-- C5 (amended): for input rows whose counters satisfy
total_home_picks <= total_picks_made and total_covers <= total_games, every
output bucket has pct_picks_home and pct_games_home_covered in [0, 100],
with the zero-denominator replace(0, 1) guard equal to max(denominator, 1);
without that per-row hypothesis the percentages can exceed 100. -/
theorem c5_pct_in_range (w : ℚ) (rows : List SpreadRow)
    (hrows : ∀ r ∈ rows,
      r.total_home_picks ≤ r.total_picks_made ∧ r.total_covers ≤ r.total_games)
    (b : BinAcc) (hb : b ∈ rebin_data w rows) :
    0 ≤ pct_picks_home b ∧ pct_picks_home b ≤ 100
    ∧ 0 ≤ pct_games_home_covered b ∧ pct_games_home_covered b ≤ 100
    ∧ pct_picks_home b
        = (b.total_home_picks : ℚ) / (((max b.total_picks_made 1 : ℕ)) : ℚ) * 100
    ∧ pct_games_home_covered b
        = (b.total_covers : ℚ) / (((max b.total_games 1 : ℕ)) : ℚ) * 100 := by
  have hbb := rebin_foldl_bounds w rows [] hrows (by simp) b hb
  have h1 := pct_bounds b.total_home_picks b.total_picks_made hbb.1
  have h2 := pct_bounds b.total_covers b.total_games hbb.2
  refine ⟨h1.1, h1.2.1, h2.1, h2.2.1, ?_, ?_⟩
  · rw [pct_picks_home, h1.2.2]
  · rw [pct_games_home_covered, h2.2.2]

/-- The input row of the C5 witness. -/
def c5Rows : List SpreadRow := [⟨0, 2, 1, 1, 2⟩]

/-- The single output bucket rebin_data produces from c5Rows at width 1/2. -/
def c5Bin : BinAcc := ⟨0, 2, 1, 1, 2, 0⟩

/-- Witness for the amended theorem of C5 on one concrete row. -/
theorem c5_pct_in_range_witness :
    (∀ r ∈ c5Rows,
      r.total_home_picks ≤ r.total_picks_made ∧ r.total_covers ≤ r.total_games)
    ∧ c5Bin ∈ rebin_data (1/2) c5Rows
    ∧ (0 ≤ pct_picks_home c5Bin ∧ pct_picks_home c5Bin ≤ 100
       ∧ 0 ≤ pct_games_home_covered c5Bin ∧ pct_games_home_covered c5Bin ≤ 100
       ∧ pct_picks_home c5Bin
           = (c5Bin.total_home_picks : ℚ) / (((max c5Bin.total_picks_made 1 : ℕ)) : ℚ) * 100
       ∧ pct_games_home_covered c5Bin
           = (c5Bin.total_covers : ℚ) / (((max c5Bin.total_games 1 : ℕ)) : ℚ) * 100) :=
  ⟨by norm_num [c5Rows],
   by norm_num [rebin_data, insertRow, binFloor, pyRound1, roundHalfEven, c5Rows, c5Bin],
   c5_pct_in_range (1/2) c5Rows (by norm_num [c5Rows]) c5Bin
     (by norm_num [rebin_data, insertRow, binFloor, pyRound1, roundHalfEven, c5Rows, c5Bin])⟩

/-- An input row with more home picks than picks made. -/
def c5BadRow : SpreadRow := ⟨0, 1, 0, 2, 1⟩

/-- The output bucket rebin_data produces from c5BadRow at width 1/2. -/
def c5BadBin : BinAcc := ⟨0, 1, 0, 2, 1, 0⟩

/-- Counterexample to C5 as stated: with non-negative integer counters
total_home_picks = 2 and total_picks_made = 1, the output bucket gets
pct_picks_home = 200, outside [0, 100]. -/
theorem c5_pct_in_range_cex :
    c5BadBin ∈ rebin_data (1/2) [c5BadRow]
    ∧ pct_picks_home c5BadBin = 200
    ∧ ¬ pct_picks_home c5BadBin ≤ 100 := by
  refine ⟨?_, ?_, ?_⟩
  · norm_num [rebin_data, insertRow, binFloor, pyRound1, roundHalfEven, c5BadRow, c5BadBin]
  · norm_num [pct_picks_home, c5BadBin]
  · norm_num [pct_picks_home, c5BadBin]

/-- C2: for any threshold t > 0, classify_luck puts each margin in exactly the
claimed bucket: Blowout Loss iff margin < -t, Bad Beat iff -t <= margin <= 0,
Lucky Win iff 0 < margin <= t, Convincing Win iff margin > t; in particular a
margin of exactly 0 is a Bad Beat. -/
theorem c2_classify_luck_boundaries (t m : ℚ) (ht : 0 < t) :
    (classify_luck t m = .blowoutLoss ↔ m < -t)
    ∧ (classify_luck t m = .badBeat ↔ -t ≤ m ∧ m ≤ 0)
    ∧ (classify_luck t m = .luckyWin ↔ 0 < m ∧ m ≤ t)
    ∧ (classify_luck t m = .convincingWin ↔ t < m)
    ∧ classify_luck t 0 = .badBeat := by
  refine ⟨?_, ?_, ?_, ?_, ?_⟩
  · unfold classify_luck
    split_ifs with h1 h2 h3 <;> simp <;> linarith
  · unfold classify_luck
    split_ifs with h1 h2 h3 <;> simp
    · intro h; linarith
    · intro h; linarith
    · constructor <;> linarith
    · intro h; linarith
  · unfold classify_luck
    split_ifs with h1 h2 h3 <;> simp
    · intro h; linarith
    · constructor <;> linarith
    · intro h; linarith
    · intro h; linarith
  · unfold classify_luck
    split_ifs with h1 h2 h3 <;> simp <;> linarith
  · unfold classify_luck
    split_ifs with h1 h2 h3 <;> first | rfl | (exfalso; linarith)

/-- Witness for C2 at t = 5/2, m = 0. -/
theorem c2_classify_luck_boundaries_witness :
    (0 : ℚ) < 5/2
    ∧ ((classify_luck (5/2) 0 = .blowoutLoss ↔ (0 : ℚ) < -(5/2 : ℚ))
       ∧ (classify_luck (5/2) 0 = .badBeat ↔ -(5/2 : ℚ) ≤ 0 ∧ (0 : ℚ) ≤ 0)
       ∧ (classify_luck (5/2) 0 = .luckyWin ↔ (0 : ℚ) < 0 ∧ (0 : ℚ) ≤ 5/2)
       ∧ (classify_luck (5/2) 0 = .convincingWin ↔ (5/2 : ℚ) < 0)
       ∧ classify_luck (5/2) 0 = .badBeat) :=
  ⟨by norm_num, c2_classify_luck_boundaries (5/2) 0 (by norm_num)⟩

/-- C9: get_herd_status divides home_pick_pct by 100 only when it is strictly
greater than 1, and uses it as-is otherwise; hence a home pick at a 1% home
share (value 1 on the 0-100 scale) is classified Herd (Chalk), not
Contrarian (Lone Wolf). -/
theorem c9_herd_normalization (p : ℚ) :
    normHomePct p = (if 1 < p then p / 100 else p)
    ∧ get_herd_status true 1 = .herd
    ∧ get_herd_status true 1 ≠ .contrarian := by
  have h : get_herd_status true 1 = .herd := by
    norm_num [get_herd_status, normHomePct]
  exact ⟨rfl, h, by simp [h]⟩

/-- C3 (amended): for every pick on a game whose home_pick_pct is strictly
greater than 1, get_herd_status agrees with the spec thresholds on the share
p of the picked side (p >= 60 Herd, p <= 40 Contrarian, else Neutral), and
the thresholds are sharp: a home pick at 60 is Herd, at 59.9 Neutral (and an
away pick at 40 is Herd, at 40.1 Neutral). -/
theorem c3_herd_thresholds (b : Bool) (q : ℚ) (hq : 1 < q) :
    get_herd_status b q = specHerdOfShare (pickShare b q)
    ∧ get_herd_status true 60 = .herd
    ∧ get_herd_status true (599/10) = .neutral
    ∧ get_herd_status false 40 = .herd
    ∧ get_herd_status false (401/10) = .neutral := by
  refine ⟨?_, by norm_num [get_herd_status, normHomePct],
    by norm_num [get_herd_status, normHomePct],
    by norm_num [get_herd_status, normHomePct],
    by norm_num [get_herd_status, normHomePct]⟩
  have hnorm : normHomePct q = q / 100 := if_pos hq
  cases b <;>
    · simp only [get_herd_status, specHerdOfShare, pickShare, hnorm, Bool.false_eq_true,
        if_true, if_false, ite_true, ite_false]
      split_ifs <;> first | rfl | (exfalso; linarith)

/-- Witness for the amended theorem of C3 at a home pick, home_pick_pct = 70. -/
theorem c3_herd_thresholds_witness :
    (1 : ℚ) < 70
    ∧ (get_herd_status true 70 = specHerdOfShare (pickShare true 70)
       ∧ get_herd_status true 60 = .herd
       ∧ get_herd_status true (599/10) = .neutral
       ∧ get_herd_status false 40 = .herd
       ∧ get_herd_status false (401/10) = .neutral) :=
  ⟨by norm_num, c3_herd_thresholds true 70 (by norm_num)⟩

/-- Counterexample to C3 as stated: for a home pick on a game whose
home-pick share is 1 on the 0-100 scale, the share of the picked side is
1 <= 40,
so the claim requires Contrarian (Lone Wolf), but get_herd_status returns
Herd (Chalk). -/
theorem c3_herd_thresholds_cex :
    get_herd_status true 1 = .herd
    ∧ specHerdOfShare (pickShare true 1) = .contrarian
    ∧ HerdStatus.herd ≠ .contrarian := by
  refine ⟨by norm_num [get_herd_status, normHomePct],
    by norm_num [specHerdOfShare, pickShare], by simp⟩

/-- C4 (amended): both pool-wide herd baselines classify both sides of every
game with the strict thresholds (Herd at pick share > 60, Contrarian at < 40,
Neutral otherwise — so a side with pick share exactly 60 is Neutral, unlike
the per-pick classification which makes 60 Herd), applied to the home side at
home_pick_pct and the away side at 100 - home_pick_pct, each side weighted by
its pick share (times the pick count for the global distribution). -/
theorem c4_pool_baseline_thresholds (rows : List GlobalStatRow)
    (crows : List ConsensusRow) (cat : HerdStatus) :
    (pool_herd_counts rows).get cat
      = ((rows.filter (fun r => r.home_margin.isSome)).map (poolRowContrib cat)).sum
    ∧ (global_herd_counts crows).get cat = (crows.map (globalRowContrib cat)).sum
    ∧ strictSideCat 60 = .neutral
    ∧ strictSideCat 40 = .neutral
    ∧ get_herd_status true 60 = .herd := by
  refine ⟨?_, ?_, by norm_num [strictSideCat], by norm_num [strictSideCat],
    by norm_num [get_herd_status, normHomePct]⟩
  · rw [pool_herd_counts, poolStep_foldl, HerdCounts.get_zero, zero_add]
  · rw [global_herd_counts, globalStep_foldl, HerdCounts.get_zero, zero_add]

lemma mae_median_nonneg (l : List (ℚ × ℚ × ℚ)) : 0 ≤ mae_median l := by
  unfold mae_median
  apply div_nonneg
  · apply List.sum_nonneg
    intro x hx
    rcases List.mem_map.mp hx with ⟨a, _, rfl⟩
    exact abs_nonneg _
  · exact_mod_cast Nat.zero_le _

/-- C7: over the admitted MNF games (positive actual total, both forecasts
present), edge_pct is (mae_median - mae_user) / mae_median * 100, and exactly
0 when mae_median = 0 — an explicit value, not an error. -/
theorem c7_edge_pct_guard (rows : List MnfRow) :
    edge_pct (admittedMnf rows)
      = if mae_median (admittedMnf rows) = 0 then 0
        else ((mae_median (admittedMnf rows) - mae_user (admittedMnf rows))
              / mae_median (admittedMnf rows)) * 100 := by
  by_cases h : mae_median (admittedMnf rows) = 0
  · rw [if_pos h, edge_pct, if_neg (by rw [h]; exact lt_irrefl 0)]
  · have hpos : 0 < mae_median (admittedMnf rows) :=
      lt_of_le_of_ne (mae_median_nonneg _) (Ne.symm h)
    rw [if_neg h, edge_pct, if_pos hpos]

/-- C6: on the join of a pick with an ingested game, user_won is
pick_home == home_cover, raw_margin is (home_score + home_spread) -
away_score, user_margin flips the sign for an away pick and equals the
spread-adjusted margin of the picked side over its opponent; on a non-tie game a positive
user_margin is exactly a win (the picked side covered). -/
theorem c6_user_margin_semantics (b : Bool) (se we h a : ℤ) (sp : ℚ)
    (htie : (mkGame se we h a sp).tie_spread = false) :
    user_won b (mkGame se we h a sp).home_cover = (b == (mkGame se we h a sp).home_cover)
    ∧ raw_margin (mkGame se we h a sp) = ((h : ℚ) + sp) - (a : ℚ)
    ∧ user_margin b (mkGame se we h a sp)
        = (if b then raw_margin (mkGame se we h a sp)
           else -raw_margin (mkGame se we h a sp))
    ∧ user_margin b (mkGame se we h a sp) = pickedSideMargin b (mkGame se we h a sp)
    ∧ (user_won b (mkGame se we h a sp).home_cover = true
        ↔ 0 < user_margin b (mkGame se we h a sp)) := by
  have hne : ((h : ℚ) + sp) ≠ (a : ℚ) := by simpa [mkGame] using htie
  refine ⟨rfl, rfl, rfl, ?_, ?_⟩
  · cases b
    · simp only [user_margin, pickedSideMargin, raw_margin, mkGame, Bool.false_eq_true,
        if_false, ite_false]
      ring
    · rfl
  · have htri : ((a : ℚ) < (h : ℚ) + sp) ∨ ((h : ℚ) + sp < (a : ℚ)) := by
      rcases lt_trichotomy ((h : ℚ) + sp) (a : ℚ) with hlt | heq | hgt
      · exact Or.inr hlt
      · exact absurd heq hne
      · exact Or.inl hgt
    rcases htri with hlt | hgt
    · have hc : (mkGame se we h a sp).home_cover = true := by
        simp only [mkGame, decide_eq_true_eq]
        exact hlt
      cases b <;> simp [user_won, hc, user_margin, raw_margin, mkGame] <;>
        first
          | linarith
          | (constructor <;> intro <;> linarith)
    · have hc : (mkGame se we h a sp).home_cover = false := by
        simp only [mkGame, decide_eq_false_iff_not, not_lt]
        exact hgt.le
      cases b <;> simp [user_won, hc, user_margin, raw_margin, mkGame] <;>
        first
          | linarith
          | (constructor <;> intro <;> linarith)

/-- Witness for C6: a home pick on the game with home_score 10, away_score 3,
spread -3 (adjusted 7 > 3: home covers, no tie). -/
theorem c6_user_margin_semantics_witness :
    (mkGame 2024 1 10 3 (-3)).tie_spread = false
    ∧ (user_won true (mkGame 2024 1 10 3 (-3)).home_cover
          = (true == (mkGame 2024 1 10 3 (-3)).home_cover)
       ∧ raw_margin (mkGame 2024 1 10 3 (-3)) = (((10 : ℤ) : ℚ) + (-3)) - ((3 : ℤ) : ℚ)
       ∧ user_margin true (mkGame 2024 1 10 3 (-3))
           = (if true then raw_margin (mkGame 2024 1 10 3 (-3))
              else -raw_margin (mkGame 2024 1 10 3 (-3)))
       ∧ user_margin true (mkGame 2024 1 10 3 (-3))
           = pickedSideMargin true (mkGame 2024 1 10 3 (-3))
       ∧ (user_won true (mkGame 2024 1 10 3 (-3)).home_cover = true
           ↔ 0 < user_margin true (mkGame 2024 1 10 3 (-3)))) :=
  ⟨by norm_num [mkGame],
   c6_user_margin_semantics true 2024 1 10 3 (-3) (by norm_num [mkGame])⟩

/-- C8: ingestion makes tie_spread and home_cover mutually exclusive
(tie_spread iff the adjusted home score equals the away score, home_cover iff
it strictly exceeds it), and every game the per-user query returns has
tie_spread = false. -/
theorem c8_tie_spread_exclusion (se we h a : ℤ) (sp : ℚ)
    (games : List Game) (seasons : List ℤ) (g : Game)
    (hg : g ∈ gamesQuery games seasons) :
    ((mkGame se we h a sp).tie_spread = true ↔ (h : ℚ) + sp = (a : ℚ))
    ∧ ((mkGame se we h a sp).home_cover = true ↔ (a : ℚ) < (h : ℚ) + sp)
    ∧ ¬((mkGame se we h a sp).tie_spread = true ∧ (mkGame se we h a sp).home_cover = true)
    ∧ g.tie_spread = false := by
  refine ⟨by simp [mkGame], by simp [mkGame], ?_, ?_⟩
  · rintro ⟨h1, h2⟩
    simp only [mkGame, decide_eq_true_eq] at h1 h2
    rw [h1] at h2
    exact lt_irrefl _ h2
  · have hb := (List.mem_filter.mp hg).2
    simp only [Bool.and_eq_true, Bool.not_eq_true', decide_eq_true_eq] at hb
    exact hb.2

/-- The game of the C8 witness. -/
def c8Game : Game := mkGame 2024 1 10 3 (-3)

/-- Witness for C8 with a concrete non-tie game in the query result. -/
theorem c8_tie_spread_exclusion_witness :
    c8Game ∈ gamesQuery [c8Game] [2024]
    ∧ (((mkGame 2024 1 10 3 (-3)).tie_spread = true
          ↔ ((10 : ℤ) : ℚ) + (-3) = ((3 : ℤ) : ℚ))
       ∧ ((mkGame 2024 1 10 3 (-3)).home_cover = true
          ↔ ((3 : ℤ) : ℚ) < ((10 : ℤ) : ℚ) + (-3))
       ∧ ¬((mkGame 2024 1 10 3 (-3)).tie_spread = true
            ∧ (mkGame 2024 1 10 3 (-3)).home_cover = true)
       ∧ c8Game.tie_spread = false) :=
  ⟨by norm_num [gamesQuery, c8Game, mkGame],
   c8_tie_spread_exclusion 2024 1 10 3 (-3) [c8Game] [2024] c8Game
     (by norm_num [gamesQuery, c8Game, mkGame])⟩

/-- C10: the Median Picker picks home exactly when the per-game consensus
home-pick percentage, with missing values filled as 50, strictly exceeds 50;
a game with no consensus row, or an exactly even 50/50 split, gets an away
pick. -/
theorem c10_median_picker (c : List (ℤ × ℚ)) (gameIds : List ℤ) (gid : ℤ) (b : Bool) :
    (medianPickHome c gid = true ↔ 50 < (lookupPct c gid).getD 50)
    ∧ (lookupPct c gid = none → medianPickHome c gid = false)
    ∧ (lookupPct c gid = some 50 → medianPickHome c gid = false)
    ∧ ((gid, b) ∈ medianPicks gameIds c → b = medianPickHome c gid) := by
  refine ⟨?_, ?_, ?_, ?_⟩
  · simp [medianPickHome]
  · intro hnone
    simp [medianPickHome, hnone]
  · intro hsome
    simp [medianPickHome, hsome]
  · intro hmem
    unfold medianPicks at hmem
    split_ifs at hmem with hc
    · exact absurd hmem (List.not_mem_nil _)
    · rcases List.mem_map.mp hmem with ⟨x, _, hxy⟩
      rcases Prod.mk.injEq .. ▸ hxy with ⟨h1, h2⟩
      rw [← h1, h2]

/-- Counterexample to C4 as stated: a game whose home side has pick share
exactly 60 contributes nothing to Herd (Chalk) in either baseline — the
whole weight (60 for home, 40 for away) lands on Neutral — while the claim
says a side at exactly 60 is classified Herd. -/
theorem c4_pool_baseline_thresholds_cex :
    (pool_herd_counts [⟨some 3, some 60⟩]).get .herd = 0
    ∧ (pool_herd_counts [⟨some 3, some 60⟩]).get .neutral = 100
    ∧ (global_herd_counts [⟨10, 60⟩]).get .herd = 0
    ∧ strictSideCat 60 = .neutral
    ∧ get_herd_status true 60 = .herd := by
  have hcat : strictSideCat (60 : ℚ) = .neutral := by norm_num [strictSideCat]
  have hcat40 : strictSideCat (40 : ℚ) = .neutral := by norm_num [strictSideCat]
  refine ⟨?_, ?_, ?_, hcat, by norm_num [get_herd_status, normHomePct]⟩ <;>
    · simp only [pool_herd_counts, global_herd_counts, List.filter, Option.isSome,
        List.foldl_cons, List.foldl_nil, poolStep, globalStep, Option.getD]
      norm_num [hcat, hcat40, HerdCounts.add, HerdCounts.get, HerdCounts.get_zero]

end NFL
